import Mathlib

/-!
Shallow embedding of the client-side job lifecycle logic of the
EstateVision property-video generator: the file-selection handler,
the generation handler with its status-polling loop, the reset
handler, and the language-selection state machine, all translated
from components/VideoGenerator.tsx.
-/

namespace EstateVision

/-- The GenerationStatus enum from types.ts. -/
inductive GenerationStatus where
  | IDLE
  | SCRIPTING
  | VOICEOVER
  | VIDEO_GEN
  | COMPLETED
  | FAILED
deriving DecidableEq

/-- A selected file: only the name and byte size are observed by the code. -/
structure File where
  name : String
  size : Nat
deriving DecidableEq

/-- The JobStatusResponse shape returned by GET /api/v1/status/{id}. -/
structure StatusResponse where
  id : Nat
  status : String
  progress : Int
  error_message : Option String
  output_file_path : Option String
deriving DecidableEq

/-- The response of POST /api/v1/generate (submitVideoGeneration). -/
structure SubmitResult where
  id : Nat
  status : String
  progress : Int
deriving DecidableEq

/-- The result object built by handleGenerate on completion. -/
structure GeneratedVideo where
  id : String
  title : String
  description : String
  videoUrl : String
  thumbnailUrl : String
  status : GenerationStatus
  createdAt : Nat
  language : String
deriving DecidableEq

/-- The React state of the VideoGenerator component. -/
structure CompState where
  status : GenerationStatus
  description : String
  language : String
  selectedVideo : Option File
  previewUrl : Option String
  error : Option String
  generatedResult : Option GeneratedVideo
deriving DecidableEq

/-- One entry of the LANGUAGES constant. -/
structure LangOption where
  id : String
  label : String
  voice : String
deriving DecidableEq

/-- The LANGUAGES constant from VideoGenerator.tsx. -/
def LANGUAGES : List LangOption :=
  [⟨"en", "English", "nova"⟩, ⟨"te", "Telugu", "onyx"⟩]

/-- The initial component state set by the useState calls. -/
def initialState : CompState :=
  { status := GenerationStatus.IDLE
    description := ""
    language := "en"
    selectedVideo := none
    previewUrl := none
    error := none
    generatedResult := none }

/-- JavaScript String.prototype.trim: strip leading and trailing whitespace.
Defined on the character list so that it evaluates by structural recursion. -/
def jsTrim (s : String) : String :=
  String.mk
    (((s.data.dropWhile Char.isWhitespace).reverse.dropWhile Char.isWhitespace).reverse)

/-- JavaScript `a || b` on an optional string: the empty string is falsy. -/
def orElseStr (a : Option String) (b : String) : String :=
  match a with
  | some s => if s = "" then b else s
  | none => b

/-- handleFileChange: rejects files over 100MB with an error and otherwise
stores the file, clears the error and builds a preview URL.  The
URL.createObjectURL call is modelled by the createUrl argument, where none
models the thrown-exception branch. -/
def handleFileChange (st : CompState) (fileOpt : Option File)
    (createUrl : File → Option String) : CompState :=
  match fileOpt with
  | none => st
  | some file =>
    if file.size > 100 * 1024 * 1024 then
      { st with error := some "File size exceeds 100MB limit" }
    else
      let st1 := { st with selectedVideo := some file, error := none }
      match createUrl file with
      | some url => { st1 with previewUrl := some url }
      | none => { st1 with previewUrl := none }

/-- The progress-to-phase mapping inside the polling loop
(lines 90-96 of VideoGenerator.tsx). -/
def progressPhase (progress : Int) : GenerationStatus :=
  if progress < 30 then GenerationStatus.SCRIPTING
  else if progress < 60 then GenerationStatus.VOICEOVER
  else GenerationStatus.VIDEO_GEN

/-- The loop guard: the while loop continues exactly while the status is
neither COMPLETED nor FAILED. -/
def isTerminal (r : StatusResponse) : Bool :=
  r.status == "COMPLETED" || r.status == "FAILED"

/-- Observable client actions performed by handleGenerate. -/
inductive ClientEvent where
  | submitCall
  | statusCall (k : Nat)
  | wait (ms : Nat)
  | setPhase (s : GenerationStatus)
deriving DecidableEq

/-- The polling while-loop of handleGenerate.  The stream f gives the
response of the k-th getJobStatus call; fuel is an artificial observation
bound (the source has no iteration cap), k the index of the response the
loop guard currently examines.  Returns the events of the remaining
iterations and the terminal response, if one arrives within fuel
iterations. -/
def pollLoop (f : Nat → StatusResponse) :
    Nat → Nat → List ClientEvent × Option StatusResponse
  | 0, k => if isTerminal (f k) then ([], some (f k)) else ([], none)
  | fuel + 1, k =>
    if isTerminal (f k) then ([], some (f k))
    else
      let next := pollLoop f fuel (k + 1)
      (ClientEvent.wait 2000 :: ClientEvent.statusCall (k + 1) ::
        ClientEvent.setPhase (progressPhase (f (k + 1)).progress) :: next.1,
       next.2)

/-- The full sequence of poll-related events: the initial getJobStatus call
followed by the loop's events. -/
def fullPollTrace (f : Nat → StatusResponse) (fuel : Nat) : List ClientEvent :=
  ClientEvent.statusCall 0 :: (pollLoop f fuel 0).1

/-- The last phase set by a list of events, with a default. -/
def lastPhase (evts : List ClientEvent) (dflt : GenerationStatus) :
    GenerationStatus :=
  evts.foldl (fun acc e =>
    match e with
    | ClientEvent.setPhase s => s
    | _ => acc) dflt

/-- The fallback thumbnail URL used when no preview URL exists. -/
def defaultThumbnail : String :=
  "https://images.unsplash.com/photo-1560518883-ce09059eeffa?auto=format&fit=crop&q=80&w=400"

/-- The events of handleGenerate before the polling loop: the two phase
updates around the submission call and the initial status query. -/
def preEvents : List ClientEvent :=
  [ClientEvent.setPhase GenerationStatus.SCRIPTING, ClientEvent.submitCall,
   ClientEvent.setPhase GenerationStatus.VOICEOVER, ClientEvent.statusCall 0]

/-- The newVideo object handleGenerate builds on COMPLETED
(lines 103-112 of VideoGenerator.tsx). -/
def mkVideo (st : CompState) (sr : SubmitResult) (r : StatusResponse)
    (now : Nat) : GeneratedVideo :=
  { id := toString sr.id
    title := "Generated Video #" ++ toString sr.id
    description := st.description
    videoUrl := orElseStr r.output_file_path
      ("/api/v1/download/" ++ toString sr.id)
    thumbnailUrl := orElseStr st.previewUrl defaultThumbnail
    status := GenerationStatus.COMPLETED
    createdAt := now
    language := st.language }

/-- The outcome of one handleGenerate call: final component state, the
events performed, the payloads passed to onComplete, and whether the
handler returned (false when the poll loop is still running at the
observation bound). -/
structure GenResult where
  state : CompState
  events : List ClientEvent
  onCompleteCalls : List GeneratedVideo
  returned : Bool
deriving DecidableEq

/-- handleGenerate from VideoGenerator.tsx.  submitRes models the awaited
result of apiService.submitVideoGeneration (Except.error is the thrown
exception), f the stream of getJobStatus responses, now the Date value. -/
def handleGenerate (st : CompState) (submitRes : Except String SubmitResult)
    (f : Nat → StatusResponse) (fuel : Nat) (now : Nat) : GenResult :=
  match st.selectedVideo with
  | none => ⟨{ st with error := some "Please select a video file." }, [], [], true⟩
  | some _ =>
    if jsTrim st.description = "" then
      ⟨{ st with error := some "Please provide a property description." }, [], [], true⟩
    else
      let st1 := { st with error := none, status := GenerationStatus.SCRIPTING }
      match submitRes with
      | Except.error msg =>
        ⟨{ st1 with
            status := GenerationStatus.FAILED
            error := some (orElseStr (some msg)
              "An error occurred during video generation.") },
         [ClientEvent.setPhase GenerationStatus.SCRIPTING, ClientEvent.submitCall],
         [], true⟩
      | Except.ok result =>
        let st2 := { st1 with status := GenerationStatus.VOICEOVER }
        let poll := pollLoop f fuel 0
        match poll.2 with
        | none =>
          let evts := preEvents ++ poll.1
          ⟨{ st2 with status := lastPhase evts st2.status }, evts, [], false⟩
        | some r =>
          let stL := { st2 with status := lastPhase (preEvents ++ poll.1) st2.status }
          if r.status = "COMPLETED" then
            let newVideo : GeneratedVideo := mkVideo st result r now
            ⟨{ stL with
                status := GenerationStatus.COMPLETED
                generatedResult := some newVideo },
             preEvents ++ poll.1 ++ [ClientEvent.setPhase GenerationStatus.COMPLETED],
             [newVideo], true⟩
          else
            ⟨{ stL with
                status := GenerationStatus.FAILED
                error := some (orElseStr r.error_message "Video generation failed") },
             preEvents ++ poll.1 ++ [ClientEvent.setPhase GenerationStatus.FAILED],
             [], true⟩

/-- handleReset from VideoGenerator.tsx. -/
def handleReset (st : CompState) : CompState :=
  { st with
    status := GenerationStatus.IDLE
    description := ""
    language := "en"
    selectedVideo := none
    previewUrl := none
    generatedResult := none
    error := none }

/-- One user-visible operation on the VideoGenerator component.  The
language buttons are rendered by mapping over LANGUAGES, so a click is
modelled as an index into that list. -/
inductive Action where
  | fileChange (fileOpt : Option File) (createUrl : File → Option String)
  | setDescriptionInput (s : String)
  | selectLanguage (i : Nat)
  | generate (submitRes : Except String SubmitResult)
      (f : Nat → StatusResponse) (fuel : Nat) (now : Nat)
  | reset

/-- The state transition of one component operation. -/
def step (st : CompState) (a : Action) : CompState :=
  match a with
  | Action.fileChange fo cu => handleFileChange st fo cu
  | Action.setDescriptionInput s => { st with description := s }
  | Action.selectLanguage i =>
    match LANGUAGES[i]? with
    | some l => { st with language := l.id }
    | none => st
  | Action.generate sr f fuel now => (handleGenerate st sr f fuel now).state
  | Action.reset => handleReset st

/-- The component state after a sequence of operations from the initial
state. -/
def run (acts : List Action) : CompState :=
  acts.foldl step initialState

/-- n is the index of the first terminal status response in the stream. -/
def firstTerminalAt (f : Nat → StatusResponse) (n : Nat) : Prop :=
  isTerminal (f n) = true ∧ ∀ m, m < n → isTerminal (f m) = false

/-- The events the polling loop performs when the first terminal response
has index k + d: d iterations, each a 2000ms wait, a status call and a
phase update. -/
def loopTrace (f : Nat → StatusResponse) : Nat → Nat → List ClientEvent
  | _, 0 => []
  | k, d + 1 =>
    ClientEvent.wait 2000 :: ClientEvent.statusCall (k + 1) ::
      ClientEvent.setPhase (progressPhase (f (k + 1)).progress) ::
        loopTrace f (k + 1) d

/-- The indices of the status calls in an event list. -/
def callIdxs (evts : List ClientEvent) : List Nat :=
  evts.filterMap (fun e =>
    match e with
    | ClientEvent.statusCall k => some k
    | _ => none)

/-- The sequence of phases set by an event list. -/
def phasesOf (evts : List ClientEvent) : List GenerationStatus :=
  evts.filterMap (fun e =>
    match e with
    | ClientEvent.setPhase s => some s
    | _ => none)

/-- The projection of an event list onto status calls and waits. -/
def cwProj (evts : List ClientEvent) : List ClientEvent :=
  evts.filter (fun e =>
    match e with
    | ClientEvent.statusCall _ => true
    | ClientEvent.wait _ => true
    | _ => false)

/-- A status call, then m repetitions of one 2000ms wait followed by the
next status call: the shape of the calls-and-waits projection of a poll
trace. -/
def altCW : Nat → Nat → List ClientEvent
  | k, 0 => [ClientEvent.statusCall k]
  | k, m + 1 => ClientEvent.statusCall k :: ClientEvent.wait 2000 :: altCW (k + 1) m

/-- The position of each phase in the fixed order of the workflow. -/
def phaseRank : GenerationStatus → Nat
  | GenerationStatus.IDLE => 0
  | GenerationStatus.SCRIPTING => 1
  | GenerationStatus.VOICEOVER => 2
  | GenerationStatus.VIDEO_GEN => 3
  | GenerationStatus.COMPLETED => 4
  | GenerationStatus.FAILED => 5

/-- COMPLETED and FAILED are the terminal phases. -/
def isTerminalPhase : GenerationStatus → Bool
  | GenerationStatus.COMPLETED => true
  | GenerationStatus.FAILED => true
  | _ => false

/-- One step of the order claimed by the spec: from a terminal phase only
to itself, otherwise forward in the fixed order or a jump to FAILED. -/
def forwardStep (a b : GenerationStatus) : Bool :=
  if isTerminalPhase a then a == b
  else b == GenerationStatus.FAILED || decide (phaseRank a ≤ phaseRank b)

/-- Every adjacent pair of the list is a forward step. -/
def forwardChain : List GenerationStatus → Bool
  | [] => true
  | [_] => true
  | a :: b :: rest => forwardStep a b && forwardChain (b :: rest)

/-- A terminal phase occurs at most as the last element. -/
def terminalOnlyLast : List GenerationStatus → Bool
  | [] => true
  | [_] => true
  | a :: b :: rest => !isTerminalPhase a && terminalOnlyLast (b :: rest)

/-- Example fixture: a selected video file. -/
def exFile : File := ⟨"tour.mp4", 1000⟩

/-- Example fixture: a component state ready to generate. -/
def exState : CompState :=
  { initialState with selectedVideo := some exFile, description := "Spacious house" }

/-- Example fixture: the submission result for job 7. -/
def exSubmitRes : SubmitResult := ⟨7, "PENDING", 0⟩

/-- Example fixture: a successful submission response. -/
def exSubmit : Except String SubmitResult := Except.ok exSubmitRes

/-- Example fixture: two non-terminal responses, then COMPLETED. -/
def exStream : Nat → StatusResponse := fun k =>
  if k < 2 then ⟨7, "PROCESSING", 0, none, none⟩
  else ⟨7, "COMPLETED", 100, none, some "/files/out.mp4"⟩

/-- Example fixture: a stream in which no terminal status ever arrives. -/
def exStreamLoop : Nat → StatusResponse := fun _ => ⟨7, "PROCESSING", 10, none, none⟩

/-- Example fixture: an immediately FAILED job whose error_message is the
empty string. -/
def exStreamFailEmpty : Nat → StatusResponse :=
  fun _ => ⟨7, "FAILED", 10, some "", none⟩

/-- Example fixture: an immediately FAILED job with a non-empty
error_message. -/
def exStreamFailMsg : Nat → StatusResponse :=
  fun _ => ⟨7, "FAILED", 55, some "TTS quota exceeded", none⟩

/-- Example fixture: an immediately COMPLETED job carrying no
output_file_path. -/
def exStreamNoOutput : Nat → StatusResponse :=
  fun _ => ⟨7, "COMPLETED", 100, none, none⟩

/-- A 5001-character description, exceeding the displayed 5000-character
limit. -/
def longDesc : String := String.mk (List.replicate 5001 'a')

/-- Example fixture: a ready-to-generate state whose description exceeds
the displayed limit. -/
def exStateLong : CompState :=
  { initialState with selectedVideo := some exFile, description := longDesc }

/-- Example fixture: a ready-to-generate state with a whitespace-only
description. -/
def exStateNoDesc : CompState :=
  { initialState with selectedVideo := some exFile, description := "   " }

/-- Example fixture: a small file within the 100MB limit. -/
def exSmallFile : File := ⟨"clip.mp4", 52428800⟩

/-- Example fixture: a file one byte over the 100MB limit. -/
def exBigFile : File := ⟨"big.mov", 104857601⟩

/-- Example fixture: a createObjectURL model that always succeeds. -/
def exCreateUrl : File → Option String := fun file => some ("blob:" ++ file.name)

lemma pollLoop_terminal (f : Nat → StatusResponse) (fuel k : Nat)
    (h : isTerminal (f k) = true) : pollLoop f fuel k = ([], some (f k)) := by
  cases fuel <;> simp [pollLoop, h]

lemma pollLoop_step (f : Nat → StatusResponse) (fuel k : Nat)
    (h : isTerminal (f k) = false) :
    pollLoop f (fuel + 1) k =
      (ClientEvent.wait 2000 :: ClientEvent.statusCall (k + 1) ::
        ClientEvent.setPhase (progressPhase (f (k + 1)).progress) ::
          (pollLoop f fuel (k + 1)).1,
       (pollLoop f fuel (k + 1)).2) := by
  simp [pollLoop, h]

lemma pollLoop_firstTerminal (f : Nat → StatusResponse) :
    ∀ d k fuel, d ≤ fuel →
      (∀ m, m < d → isTerminal (f (k + m)) = false) →
      isTerminal (f (k + d)) = true →
      pollLoop f fuel k = (loopTrace f k d, some (f (k + d))) := by
  intro d
  induction d with
  | zero =>
    intro k fuel _ _ hterm
    simpa [loopTrace] using pollLoop_terminal f fuel k (by simpa using hterm)
  | succ d ih =>
    intro k fuel hle hnon hterm
    obtain ⟨fuel', rfl⟩ : ∃ fuel', fuel = fuel' + 1 := ⟨fuel - 1, by omega⟩
    have h0 : isTerminal (f k) = false := by simpa using hnon 0 (by omega)
    rw [pollLoop_step f fuel' k h0]
    have hrec := ih (k + 1) fuel' (by omega)
      (fun m hm => by
        have := hnon (m + 1) (by omega)
        simpa [show k + 1 + m = k + (m + 1) from by omega] using this)
      (by simpa [show k + 1 + d = k + (d + 1) from by omega] using hterm)
    rw [hrec]
    simp [loopTrace, show k + 1 + d = k + (d + 1) from by omega]

lemma pollLoop_noTerminal (f : Nat → StatusResponse)
    (h : ∀ m, isTerminal (f m) = false) :
    ∀ fuel k, (pollLoop f fuel k).2 = none := by
  intro fuel
  induction fuel with
  | zero => intro k; simp [pollLoop, h k]
  | succ fuel ih =>
    intro k
    rw [pollLoop_step f fuel k (h k)]
    exact ih (k + 1)

lemma callIdxs_loopTrace (f : Nat → StatusResponse) :
    ∀ d k, callIdxs (loopTrace f k d) = List.range' (k + 1) d := by
  intro d
  induction d with
  | zero => intro k; simp [loopTrace, callIdxs]
  | succ d ih =>
    intro k
    simp [loopTrace, callIdxs, List.range'] at *
    exact ih (k + 1)

lemma phasesOf_loopTrace (f : Nat → StatusResponse) :
    ∀ d k, phasesOf (loopTrace f k d) =
      (List.range' (k + 1) d).map (fun i => progressPhase (f i).progress) := by
  intro d
  induction d with
  | zero => intro k; simp [loopTrace, phasesOf]
  | succ d ih =>
    intro k
    simp [loopTrace, phasesOf, List.range'] at *
    exact ih (k + 1)

lemma waits_pollLoop (f : Nat → StatusResponse) :
    ∀ fuel k ms, ClientEvent.wait ms ∈ (pollLoop f fuel k).1 → ms = 2000 := by
  intro fuel
  induction fuel with
  | zero =>
    intro k ms h
    by_cases ht : isTerminal (f k) = true <;>
      simp [pollLoop, ht] at h
  | succ fuel ih =>
    intro k ms h
    by_cases ht : isTerminal (f k) = true
    · rw [pollLoop_terminal f _ k ht] at h
      simp at h
    · rw [pollLoop_step f fuel k (by simpa using ht)] at h
      simp at h
      rcases h with h | h
      · exact h
      · exact ih (k + 1) ms h

lemma cw_pollLoop (f : Nat → StatusResponse) :
    ∀ fuel k, ∃ m,
      cwProj (ClientEvent.statusCall k :: (pollLoop f fuel k).1) = altCW k m := by
  intro fuel
  induction fuel with
  | zero =>
    intro k
    refine ⟨0, ?_⟩
    by_cases ht : isTerminal (f k) = true <;> simp [pollLoop, ht, cwProj, altCW]
  | succ fuel ih =>
    intro k
    by_cases ht : isTerminal (f k) = true
    · refine ⟨0, ?_⟩
      rw [pollLoop_terminal f _ k ht]
      simp [cwProj, altCW]
    · obtain ⟨m, hm⟩ := ih (k + 1)
      refine ⟨m + 1, ?_⟩
      rw [pollLoop_step f fuel k (by simpa using ht)]
      simp only [cwProj, List.filter_cons] at hm ⊢
      simpa [altCW] using hm

lemma progressPhase_not_terminal (p : Int) :
    isTerminalPhase (progressPhase p) = false := by
  unfold progressPhase
  split_ifs <;> rfl

lemma progressPhase_rank_le (p : Int) : phaseRank (progressPhase p) ≤ 3 := by
  unfold progressPhase
  split_ifs <;> simp [phaseRank]

lemma progressPhase_mono (p q : Int) (h : p ≤ q) :
    phaseRank (progressPhase p) ≤ phaseRank (progressPhase q) := by
  unfold progressPhase
  split_ifs <;> simp [phaseRank] <;> omega

lemma forwardStep_of_rank_le (a b : GenerationStatus)
    (ha : isTerminalPhase a = false) (h : phaseRank a ≤ phaseRank b) :
    forwardStep a b = true := by
  unfold forwardStep
  rw [if_neg (by simp [ha])]
  simp [h]

lemma forwardStep_to_terminal (a b : GenerationStatus)
    (ha : isTerminalPhase a = false) (hb : isTerminalPhase b = true) :
    forwardStep a b = true := by
  cases a <;> cases b <;>
    simp_all [forwardStep, isTerminalPhase, phaseRank]

lemma fc_window (g : Nat → GenerationStatus) (fin : GenerationStatus)
    (hfin : ∀ i, forwardStep (g i) fin = true) :
    ∀ d k, (∀ i, k + 1 ≤ i → i + 1 ≤ k + d → forwardStep (g i) (g (i + 1)) = true) →
      forwardChain ((List.range' (k + 1) d).map g ++ [fin]) = true := by
  intro d
  induction d with
  | zero => intro k _; simp [forwardChain]
  | succ d ih =>
    intro k hmono
    cases d with
    | zero => simp [List.range', forwardChain, hfin (k + 1)]
    | succ d' =>
      have hrec := ih (k + 1) (fun i h1 h2 => hmono i (by omega) (by omega))
      have hshape : (List.range' (k + 1) (d' + 2)).map g ++ [fin] =
          g (k + 1) :: ((List.range' (k + 2) (d' + 1)).map g ++ [fin]) := by
        simp [List.range']
      rw [hshape]
      have hhead : ((List.range' (k + 2) (d' + 1)).map g ++ [fin]) =
          g (k + 2) :: ((List.range' (k + 3) d').map g ++ [fin]) := by
        simp [List.range']
      rw [hhead]
      rw [hhead] at hrec
      simp only [forwardChain, Bool.and_eq_true] at hrec ⊢
      exact ⟨hmono (k + 1) (by omega) (by omega), hrec⟩

lemma terminalOnlyLast_append (fin : GenerationStatus) :
    ∀ l : List GenerationStatus, (∀ x ∈ l, isTerminalPhase x = false) →
      terminalOnlyLast (l ++ [fin]) = true := by
  intro l
  induction l with
  | nil => intro _; simp [terminalOnlyLast]
  | cons a t ih =>
    intro h
    have ha : isTerminalPhase a = false := h a (by simp)
    have ht := ih (fun x hx => h x (by simp [hx]))
    cases t with
    | nil => simp [terminalOnlyLast, ha]
    | cons b t' =>
      simpa [terminalOnlyLast, ha] using ht

lemma handleGenerate_completed_spec (st : CompState) (v : File)
    (sr : SubmitResult) (f : Nat → StatusResponse) (fuel now : Nat)
    (tr : List ClientEvent) (r : StatusResponse)
    (hsel : st.selectedVideo = some v) (hdesc : ¬ jsTrim st.description = "")
    (hpoll : pollLoop f fuel 0 = (tr, some r)) (hst : r.status = "COMPLETED") :
    handleGenerate st (Except.ok sr) f fuel now =
      ⟨{ st with
          error := none
          status := GenerationStatus.COMPLETED
          generatedResult := some (mkVideo st sr r now) },
       preEvents ++ tr ++ [ClientEvent.setPhase GenerationStatus.COMPLETED],
       [mkVideo st sr r now], true⟩ := by
  unfold handleGenerate
  rw [hsel]
  simp only [if_neg hdesc, hpoll, hst]
  simp

lemma handleGenerate_failed_spec (st : CompState) (v : File)
    (sr : SubmitResult) (f : Nat → StatusResponse) (fuel now : Nat)
    (tr : List ClientEvent) (r : StatusResponse)
    (hsel : st.selectedVideo = some v) (hdesc : ¬ jsTrim st.description = "")
    (hpoll : pollLoop f fuel 0 = (tr, some r)) (hst : ¬ r.status = "COMPLETED") :
    handleGenerate st (Except.ok sr) f fuel now =
      ⟨{ st with
          error := some (orElseStr r.error_message "Video generation failed")
          status := GenerationStatus.FAILED },
       preEvents ++ tr ++ [ClientEvent.setPhase GenerationStatus.FAILED],
       [], true⟩ := by
  unfold handleGenerate
  rw [hsel]
  simp only [if_neg hdesc, hpoll, if_neg hst]

lemma handleFileChange_language (st : CompState) (fo : Option File)
    (cu : File → Option String) :
    (handleFileChange st fo cu).language = st.language := by
  unfold handleFileChange
  cases fo with
  | none => rfl
  | some file =>
    by_cases h : file.size > 100 * 1024 * 1024
    · simp [h]
    · simp only [if_neg h]
      cases cu file <;> rfl

lemma handleGenerate_language (st : CompState)
    (sr : Except String SubmitResult) (f : Nat → StatusResponse)
    (fuel now : Nat) :
    (handleGenerate st sr f fuel now).state.language = st.language := by
  unfold handleGenerate
  cases st.selectedVideo with
  | none => rfl
  | some v =>
    by_cases hd : jsTrim st.description = ""
    · simp [hd]
    · simp only [if_neg hd]
      cases sr with
      | error msg => rfl
      | ok result =>
        cases hp : (pollLoop f fuel 0).2 with
        | none => simp [hp]
        | some r =>
          simp only [hp]
          by_cases hc : r.status = "COMPLETED" <;> simp [hc]

lemma dropWhile_replicate_a :
    (List.replicate 5001 'a').dropWhile Char.isWhitespace =
      List.replicate 5001 'a' := by
  rw [show (5001 : Nat) = 5000 + 1 from rfl, List.replicate_succ,
    List.dropWhile_cons]
  rw [if_neg (by decide)]

lemma jsTrim_longDesc : jsTrim longDesc = longDesc := by
  unfold jsTrim longDesc
  show String.mk
      ((((List.replicate 5001 'a').dropWhile Char.isWhitespace).reverse.dropWhile
        Char.isWhitespace).reverse) = String.mk (List.replicate 5001 'a')
  rw [dropWhile_replicate_a, List.reverse_replicate, dropWhile_replicate_a,
    List.reverse_replicate]

lemma longDesc_length : longDesc.length = 5001 := by
  show (List.replicate 5001 'a').length = 5001
  exact List.length_replicate 5001 'a'

lemma longDesc_ne_empty : ¬ longDesc = "" := by
  intro h
  have hd : (List.replicate 5001 'a') = ("" : String).data := congrArg String.data h
  have hlen := congrArg List.length hd
  rw [List.length_replicate] at hlen
  have h0 : (("" : String).data).length = 0 := by decide
  rw [h0] at hlen
  exact absurd hlen (by decide)

lemma downloadUrl_ne_empty (t : String) : ("/api/v1/download/" ++ t) ≠ "" := by
  intro h
  have hl := congrArg String.length h
  rw [String.length_append] at hl
  have h17 : ("/api/v1/download/" : String).length = 17 := by decide
  have h0 : ("" : String).length = 0 := by decide
  omega

lemma orElseStr_ne_empty (a : Option String) (b : String) (hb : b ≠ "") :
    orElseStr a b ≠ "" := by
  unfold orElseStr
  cases a with
  | none => exact hb
  | some s =>
    by_cases hs : s = ""
    · simp [hs, hb]
    · simp [hs]

lemma step_lang (st : CompState) (a : Action)
    (h : st.language = "en" ∨ st.language = "te") :
    (step st a).language = "en" ∨ (step st a).language = "te" := by
  cases a with
  | fileChange fo cu =>
    rw [show step st (Action.fileChange fo cu) = handleFileChange st fo cu from rfl,
      handleFileChange_language]
    exact h
  | setDescriptionInput s => exact h
  | selectLanguage i =>
    cases i with
    | zero => left; simp [step, LANGUAGES]
    | succ j =>
      cases j with
      | zero => right; simp [step, LANGUAGES]
      | succ j2 => simpa [step, LANGUAGES] using h
  | generate sr f fuel now =>
    rw [show step st (Action.generate sr f fuel now) =
        (handleGenerate st sr f fuel now).state from rfl,
      handleGenerate_language]
    exact h
  | reset => left; rfl

lemma phasesOf_gen_events (tr : List ClientEvent) (fin : GenerationStatus) :
    phasesOf (preEvents ++ tr ++ [ClientEvent.setPhase fin]) =
      GenerationStatus.SCRIPTING :: GenerationStatus.VOICEOVER ::
        (phasesOf tr ++ [fin]) := by
  simp [phasesOf, preEvents, List.filterMap_append]

lemma pollLoop_at_firstTerminal (f : Nat → StatusResponse) (n fuel : Nat)
    (hft : firstTerminalAt f n) (hfuel : n ≤ fuel) :
    pollLoop f fuel 0 = (loopTrace f 0 n, some (f n)) := by
  obtain ⟨hterm, hfirst⟩ := hft
  have := pollLoop_firstTerminal f n 0 fuel hfuel
    (fun m hm => by simpa using hfirst m hm) (by simpa using hterm)
  simpa using this

/-- Claim C1: the polling loop of handleGenerate issues status queries
exactly as long as the returned status is non-terminal.  When the first
terminal (COMPLETED or FAILED) response has index n, then at every
observation bound of at least n the loop ends with that response and the
status calls issued are exactly the calls 0, 1, ..., n, so no call follows
the first terminal response; when no terminal response ever arrives, the
loop is still running at every observation bound: there is no iteration
cap. -/
theorem C1_poller_stops_at_first_terminal (f : Nat → StatusResponse) :
    (∀ n, firstTerminalAt f n → ∀ fuel, n ≤ fuel →
      (pollLoop f fuel 0).2 = some (f n) ∧
      callIdxs (fullPollTrace f fuel) = List.range' 0 (n + 1)) ∧
    ((∀ m, isTerminal (f m) = false) →
      ∀ fuel, (pollLoop f fuel 0).2 = none) := by
  constructor
  · intro n hft fuel hfuel
    have hmain := pollLoop_at_firstTerminal f n fuel hft hfuel
    constructor
    · rw [hmain]
    · have h1 : callIdxs (fullPollTrace f fuel) =
          0 :: callIdxs (loopTrace f 0 n) := by
        unfold fullPollTrace callIdxs
        rw [hmain]
        simp
      rw [h1, callIdxs_loopTrace f n 0]
      simp [List.range']
  · intro hn fuel
    exact pollLoop_noTerminal f hn fuel 0

/-- Witness for C1: on a stream whose first terminal response is the
third, the loop stops with it after the calls 0, 1, 2; on an all
non-terminal stream, the loop is still running at bound 4. -/
theorem C1_poller_stops_at_first_terminal_witness :
    ((pollLoop exStream 5 0).2 = some (exStream 2) ∧
      callIdxs (fullPollTrace exStream 5) = List.range' 0 3) ∧
    (pollLoop exStreamLoop 4 0).2 = none :=
  ⟨(C1_poller_stops_at_first_terminal exStream).1 2
      ⟨by decide, fun m hm => by
        interval_cases m <;> decide⟩ 5 (by omega),
   (C1_poller_stops_at_first_terminal exStreamLoop).2 (fun m => rfl) 4⟩

/-- Claim C3: inside the polling loop the returned progress is mapped to
the phase label SCRIPTING exactly when progress is below 30, VOICEOVER
exactly when it is at least 30 and below 60, and VIDEO_GEN exactly when
it is at least 60; and the phases set by the loop are precisely this
mapping applied to the polled responses 1..n. -/
theorem C3_progress_phase_mapping :
    (∀ p : Int,
      (progressPhase p = GenerationStatus.SCRIPTING ↔ p < 30) ∧
      (progressPhase p = GenerationStatus.VOICEOVER ↔ 30 ≤ p ∧ p < 60) ∧
      (progressPhase p = GenerationStatus.VIDEO_GEN ↔ 60 ≤ p)) ∧
    (∀ (f : Nat → StatusResponse) (n fuel : Nat),
      firstTerminalAt f n → n ≤ fuel →
      phasesOf ((pollLoop f fuel 0).1) =
        (List.range' 1 n).map (fun i => progressPhase (f i).progress)) := by
  constructor
  · intro p
    refine ⟨?_, ?_, ?_⟩ <;>
      (unfold progressPhase; split_ifs <;> simp <;> omega)
  · intro f n fuel hft hfuel
    rw [pollLoop_at_firstTerminal f n fuel hft hfuel]
    simpa using phasesOf_loopTrace f n 0

/-- Witness for C3: the mapping evaluated on the three regions and on a
concrete three-response run. -/
theorem C3_progress_phase_mapping_witness :
    ((progressPhase 10 = GenerationStatus.SCRIPTING ↔ (10 : Int) < 30) ∧
      (progressPhase 10 = GenerationStatus.VOICEOVER ↔
        (30 : Int) ≤ 10 ∧ (10 : Int) < 60) ∧
      (progressPhase 10 = GenerationStatus.VIDEO_GEN ↔ (60 : Int) ≤ 10)) ∧
    phasesOf ((pollLoop exStream 5 0).1) =
      (List.range' 1 2).map (fun i => progressPhase (exStream i).progress) :=
  ⟨C3_progress_phase_mapping.1 10,
   C3_progress_phase_mapping.2 exStream 2 5
     ⟨by decide, fun m hm => by interval_cases m <;> decide⟩ (by omega)⟩

/-- Claim C5: handleFileChange rejects a file over 100MB with the error
string, leaving the rest of the state (in particular the previously
selected video and preview) unchanged, and accepts any file at or under
the limit, storing it and clearing any previous error. -/
theorem C5_file_size_validation (st : CompState) (file : File)
    (createUrl : File → Option String) :
    (file.size > 100 * 1024 * 1024 →
      handleFileChange st (some file) createUrl =
        { st with error := some "File size exceeds 100MB limit" }) ∧
    (file.size ≤ 100 * 1024 * 1024 →
      (handleFileChange st (some file) createUrl).selectedVideo = some file ∧
      (handleFileChange st (some file) createUrl).error = none) := by
  constructor
  · intro h
    unfold handleFileChange
    simp [h]
  · intro h
    have h2 : ¬ file.size > 100 * 1024 * 1024 := by omega
    unfold handleFileChange
    cases hcu : createUrl file <;> simp [h2, hcu]

/-- Witness for C5: a file one byte over the limit is rejected and a
50MB file is accepted. -/
theorem C5_file_size_validation_witness :
    (handleFileChange initialState (some exBigFile) exCreateUrl =
      { initialState with error := some "File size exceeds 100MB limit" }) ∧
    ((handleFileChange initialState (some exSmallFile) exCreateUrl).selectedVideo =
        some exSmallFile ∧
      (handleFileChange initialState (some exSmallFile) exCreateUrl).error = none) :=
  ⟨(C5_file_size_validation initialState exBigFile exCreateUrl).1 (by decide),
   (C5_file_size_validation initialState exSmallFile exCreateUrl).2 (by decide)⟩

/-- Claim C9: the language submitted with every generation request is
always a member of the supported set: starting from the initial state, any
sequence of component operations leaves the language state equal to "en"
or "te". -/
theorem C9_language_always_supported (acts : List Action) :
    (run acts).language = "en" ∨ (run acts).language = "te" := by
  unfold run
  suffices h : ∀ st : CompState, st.language = "en" ∨ st.language = "te" →
      (acts.foldl step st).language = "en" ∨
        (acts.foldl step st).language = "te" by
    exact h initialState (Or.inl rfl)
  induction acts with
  | nil => intro st h; simpa using h
  | cons a rest ih =>
    intro st h
    rw [List.foldl_cons]
    exact ih (step st a) (step_lang st a h)

/-- Claim C10: handleReset restores the exact initial component state,
whatever state it is called from: status IDLE, empty description,
language "en", no selected video, no preview, no result, no error. -/
theorem C10_reset_restores_initial_state (st : CompState) :
    handleReset st = initialState ∧
    initialState.status = GenerationStatus.IDLE ∧
    initialState.description = "" ∧
    initialState.language = "en" ∧
    initialState.selectedVideo = none ∧
    initialState.previewUrl = none ∧
    initialState.generatedResult = none ∧
    initialState.error = none :=
  ⟨rfl, rfl, rfl, rfl, rfl, rfl, rfl, rfl⟩

/-- Claim C2 counterexample: on a realistic stream (submission accepted,
two non-terminal polls with progress 0, then COMPLETED, with progress
non-decreasing) the phases set by handleGenerate are SCRIPTING, VOICEOVER,
SCRIPTING, VIDEO_GEN, COMPLETED: the phase VOICEOVER set right after
submission is followed by SCRIPTING when the first polled progress is
below 30, so the sequence steps backward in the claimed order. -/
theorem C2_phase_order_cex :
    phasesOf (handleGenerate exState exSubmit exStream 5 0).events =
      [GenerationStatus.SCRIPTING, GenerationStatus.VOICEOVER,
       GenerationStatus.SCRIPTING, GenerationStatus.VIDEO_GEN,
       GenerationStatus.COMPLETED] ∧
    forwardChain
      (phasesOf (handleGenerate exState exSubmit exStream 5 0).events) =
      false := by
  exact ⟨by decide, by decide⟩

/-- Claim C2 amended: excluding the two phase updates handleGenerate makes
before polling starts (SCRIPTING then VOICEOVER around the submission),
and assuming the polled progress values are non-decreasing, the phases set
by the polling loop never step backward in the order SCRIPTING, VOICEOVER,
VIDEO_GEN, COMPLETED, with FAILED reachable from any non-terminal phase,
and a terminal phase is only ever set as the last phase. -/
theorem C2_phase_order_amended (st : CompState) (v : File) (sr : SubmitResult)
    (f : Nat → StatusResponse) (fuel now n : Nat)
    (hsel : st.selectedVideo = some v) (hdesc : ¬ jsTrim st.description = "")
    (hft : firstTerminalAt f n) (hfuel : n ≤ fuel)
    (hmono : ∀ i, i + 1 ≤ n → (f i).progress ≤ (f (i + 1)).progress) :
    forwardChain
      ((phasesOf (handleGenerate st (Except.ok sr) f fuel now).events).drop 2) =
      true ∧
    terminalOnlyLast
      ((phasesOf (handleGenerate st (Except.ok sr) f fuel now).events).drop 2) =
      true := by
  have hmain := pollLoop_at_firstTerminal f n fuel hft hfuel
  have hg : ∀ i, isTerminalPhase (progressPhase (f i).progress) = false :=
    fun i => progressPhase_not_terminal _
  have hwin : ∀ i, 0 + 1 ≤ i → i + 1 ≤ 0 + n →
      forwardStep (progressPhase (f i).progress)
        (progressPhase (f (i + 1)).progress) = true :=
    fun i h1 h2 => forwardStep_of_rank_le _ _ (hg i)
      (progressPhase_mono _ _ (hmono i (by omega)))
  have hmem : ∀ x ∈ (List.range' (0 + 1) n).map
      (fun i => progressPhase (f i).progress), isTerminalPhase x = false := by
    intro x hx
    obtain ⟨i, _, rfl⟩ := List.mem_map.mp hx
    exact hg i
  by_cases hC : (f n).status = "COMPLETED"
  · have hspec := handleGenerate_completed_spec st v sr f fuel now _ _
      hsel hdesc hmain hC
    have hevts : (handleGenerate st (Except.ok sr) f fuel now).events =
        preEvents ++ loopTrace f 0 n ++
          [ClientEvent.setPhase GenerationStatus.COMPLETED] := by
      rw [hspec]
    rw [hevts, phasesOf_gen_events]
    simp only [List.drop_succ_cons, List.drop_zero]
    rw [phasesOf_loopTrace f n 0]
    exact ⟨fc_window _ _
        (fun i => forwardStep_to_terminal _ GenerationStatus.COMPLETED (hg i) rfl)
        n 0 hwin,
      terminalOnlyLast_append _ _ hmem⟩
  · have hspec := handleGenerate_failed_spec st v sr f fuel now _ _
      hsel hdesc hmain hC
    have hevts : (handleGenerate st (Except.ok sr) f fuel now).events =
        preEvents ++ loopTrace f 0 n ++
          [ClientEvent.setPhase GenerationStatus.FAILED] := by
      rw [hspec]
    rw [hevts, phasesOf_gen_events]
    simp only [List.drop_succ_cons, List.drop_zero]
    rw [phasesOf_loopTrace f n 0]
    exact ⟨fc_window _ _
        (fun i => forwardStep_to_terminal _ GenerationStatus.FAILED (hg i) rfl)
        n 0 hwin,
      terminalOnlyLast_append _ _ hmem⟩

/-- Witness for the amended C2: on the concrete three-response run the
loop phases followed by the terminal phase form a forward chain with the
terminal phase last. -/
theorem C2_phase_order_amended_witness :
    forwardChain
      ((phasesOf (handleGenerate exState (Except.ok exSubmitRes)
        exStream 5 0).events).drop 2) = true ∧
    terminalOnlyLast
      ((phasesOf (handleGenerate exState (Except.ok exSubmitRes)
        exStream 5 0).events).drop 2) = true :=
  C2_phase_order_amended exState exFile exSubmitRes exStream 5 0 2 rfl
    (by decide) ⟨by decide, fun m hm => by interval_cases m <;> decide⟩
    (by omega)
    (fun i hi => by
      have hle : i ≤ 1 := by omega
      interval_cases i <;> decide)

/-- Claim C4 counterexample: a submission whose description has 5001
characters (over the displayed 5000-character limit) is not rejected:
handleGenerate submits it, polls, succeeds, and reports no validation
error, so no client-side maximum-length check exists. -/
theorem C4_description_validation_cex :
    exStateLong.description.length = 5001 ∧
    ¬ (handleGenerate exStateLong exSubmit exStream 5 0).events = [] ∧
    ClientEvent.submitCall ∈
      (handleGenerate exStateLong exSubmit exStream 5 0).events ∧
    (handleGenerate exStateLong exSubmit exStream 5 0).state.status =
      GenerationStatus.COMPLETED ∧
    (handleGenerate exStateLong exSubmit exStream 5 0).state.error = none := by
  have hdesc : ¬ jsTrim exStateLong.description = "" := by
    show ¬ jsTrim longDesc = ""
    rw [jsTrim_longDesc]
    exact longDesc_ne_empty
  have hft : firstTerminalAt exStream 2 :=
    ⟨by decide, fun m hm => by interval_cases m <;> decide⟩
  have hmain := pollLoop_at_firstTerminal exStream 2 5 hft (by omega)
  have hspec := handleGenerate_completed_spec exStateLong exFile exSubmitRes
    exStream 5 0 _ _ rfl hdesc hmain (by decide)
  refine ⟨longDesc_length, ?_, ?_, ?_, ?_⟩
  · rw [show (handleGenerate exStateLong exSubmit exStream 5 0) =
      handleGenerate exStateLong (Except.ok exSubmitRes) exStream 5 0 from rfl,
      hspec]
    simp [preEvents]
  · rw [show (handleGenerate exStateLong exSubmit exStream 5 0) =
      handleGenerate exStateLong (Except.ok exSubmitRes) exStream 5 0 from rfl,
      hspec]
    simp [preEvents]
  · rw [show (handleGenerate exStateLong exSubmit exStream 5 0) =
      handleGenerate exStateLong (Except.ok exSubmitRes) exStream 5 0 from rfl,
      hspec]
  · rw [show (handleGenerate exStateLong exSubmit exStream 5 0) =
      handleGenerate exStateLong (Except.ok exSubmitRes) exStream 5 0 from rfl,
      hspec]

/-- Claim C4 amended: with a video selected, a submission whose
description is empty or whitespace-only is rejected with the validation
error naming the description field; no submission and no status call is
performed (the event list is empty, so no job is created) and the state
is otherwise unchanged.  handleGenerate performs no client-side check of
the 5000-character limit, which is display-only. -/
theorem C4_description_validation_amended (st : CompState) (v : File)
    (submitRes : Except String SubmitResult) (f : Nat → StatusResponse)
    (fuel now : Nat) (hsel : st.selectedVideo = some v)
    (hdesc : jsTrim st.description = "") :
    handleGenerate st submitRes f fuel now =
      ⟨{ st with error := some "Please provide a property description." },
       [], [], true⟩ := by
  unfold handleGenerate
  rw [hsel]
  simp [hdesc]

/-- Witness for the amended C4: a whitespace-only description is rejected
with the validation error and an empty event list. -/
theorem C4_description_validation_amended_witness :
    handleGenerate exStateNoDesc exSubmit exStream 5 0 =
      ⟨{ exStateNoDesc with
          error := some "Please provide a property description." },
       [], [], true⟩ :=
  C4_description_validation_amended exStateNoDesc exFile exSubmit exStream 5 0
    rfl (by decide)

/-- Claim C6 counterexample: a FAILED response whose error_message is
present but equal to the empty string is not rendered verbatim: the
JavaScript fallback shows the fixed text instead, so the surfaced error
differs from the returned error_message. -/
theorem C6_error_message_cex :
    (exStreamFailEmpty 0).status = "FAILED" ∧
    (exStreamFailEmpty 0).error_message = some "" ∧
    (handleGenerate exState exSubmit exStreamFailEmpty 5 0).state.status =
      GenerationStatus.FAILED ∧
    (handleGenerate exState exSubmit exStreamFailEmpty 5 0).state.error =
      some "Video generation failed" ∧
    ¬ (handleGenerate exState exSubmit exStreamFailEmpty 5 0).state.error =
      some "" := by
  exact ⟨rfl, rfl, by decide, by decide, by decide⟩

/-- Claim C6 amended: when the poller observes a FAILED response whose
error_message is present and non-empty, it stops and surfaces that
message verbatim as the user-visible error; an absent or empty
error_message is replaced by the fallback text. -/
theorem C6_error_message_amended (st : CompState) (v : File)
    (sr : SubmitResult) (f : Nat → StatusResponse) (fuel now n : Nat)
    (m : String) (hsel : st.selectedVideo = some v)
    (hdesc : ¬ jsTrim st.description = "") (hft : firstTerminalAt f n)
    (hfuel : n ≤ fuel) (hst : (f n).status = "FAILED")
    (hmsg : (f n).error_message = some m) (hm : ¬ m = "") :
    (handleGenerate st (Except.ok sr) f fuel now).state.error = some m ∧
    (handleGenerate st (Except.ok sr) f fuel now).state.status =
      GenerationStatus.FAILED ∧
    (handleGenerate st (Except.ok sr) f fuel now).returned = true := by
  have hmain := pollLoop_at_firstTerminal f n fuel hft hfuel
  have hC : ¬ (f n).status = "COMPLETED" := by
    rw [hst]
    decide
  have hspec := handleGenerate_failed_spec st v sr f fuel now _ _
    hsel hdesc hmain hC
  rw [hspec]
  refine ⟨?_, rfl, rfl⟩
  show some (orElseStr (f n).error_message "Video generation failed") = some m
  rw [hmsg]
  simp [orElseStr, hm]

/-- Witness for the amended C6: a FAILED response with a concrete
non-empty message is surfaced verbatim. -/
theorem C6_error_message_amended_witness :
    (handleGenerate exState (Except.ok exSubmitRes)
      exStreamFailMsg 3 0).state.error = some "TTS quota exceeded" ∧
    (handleGenerate exState (Except.ok exSubmitRes)
      exStreamFailMsg 3 0).state.status = GenerationStatus.FAILED ∧
    (handleGenerate exState (Except.ok exSubmitRes)
      exStreamFailMsg 3 0).returned = true :=
  C6_error_message_amended exState exFile exSubmitRes exStreamFailMsg 3 0 0
    "TTS quota exceeded" rfl (by decide)
    ⟨by decide, fun m hm => absurd hm (Nat.not_lt_zero m)⟩ (by omega) rfl rfl
    (by decide)

/-- Claim C8: when the terminal response is COMPLETED, the single result
passed to onComplete always has a non-empty videoUrl; when the response
carries no output_file_path the constructed download URL
/api/v1/download/id is substituted. -/
theorem C8_video_url_nonempty (st : CompState) (v : File) (sr : SubmitResult)
    (f : Nat → StatusResponse) (fuel now n : Nat)
    (hsel : st.selectedVideo = some v) (hdesc : ¬ jsTrim st.description = "")
    (hft : firstTerminalAt f n) (hfuel : n ≤ fuel)
    (hst : (f n).status = "COMPLETED") :
    ∃ vid,
      (handleGenerate st (Except.ok sr) f fuel now).onCompleteCalls = [vid] ∧
      ¬ vid.videoUrl = "" ∧
      ((f n).output_file_path = none →
        vid.videoUrl = "/api/v1/download/" ++ toString sr.id) := by
  have hmain := pollLoop_at_firstTerminal f n fuel hft hfuel
  have hspec := handleGenerate_completed_spec st v sr f fuel now _ _
    hsel hdesc hmain hst
  have hurl : (mkVideo st sr (f n) now).videoUrl =
      orElseStr (f n).output_file_path
        ("/api/v1/download/" ++ toString sr.id) := rfl
  refine ⟨mkVideo st sr (f n) now, ?_, ?_, ?_⟩
  · rw [hspec]
  · rw [hurl]
    exact orElseStr_ne_empty _ _ (downloadUrl_ne_empty _)
  · intro hnone
    rw [hurl, hnone]
    rfl

/-- Witness for C8: a COMPLETED response with no output_file_path yields
the download URL of job 7. -/
theorem C8_video_url_nonempty_witness :
    ∃ vid,
      (handleGenerate exState (Except.ok exSubmitRes)
        exStreamNoOutput 3 0).onCompleteCalls = [vid] ∧
      ¬ vid.videoUrl = "" ∧
      ((exStreamNoOutput 0).output_file_path = none →
        vid.videoUrl = "/api/v1/download/" ++ toString exSubmitRes.id) :=
  C8_video_url_nonempty exState exFile exSubmitRes exStreamNoOutput 3 0 0 rfl
    (by decide) ⟨by decide, fun m hm => absurd hm (Nat.not_lt_zero m)⟩
    (by omega) rfl

/-- Claim C7: every wait handleGenerate ever performs lasts exactly
2000ms, and the calls-and-waits projection of the poll trace is an
alternation in which exactly one 2000ms wait separates each pair of
consecutive status calls, for every response stream and observation
bound. -/
theorem C7_fixed_poll_interval (st : CompState)
    (sr : Except String SubmitResult) (f : Nat → StatusResponse)
    (fuel now : Nat) :
    (∀ ms, ClientEvent.wait ms ∈ (handleGenerate st sr f fuel now).events →
      ms = 2000) ∧
    (∃ m, cwProj (fullPollTrace f fuel) = altCW 0 m) := by
  constructor
  · intro ms hmem
    unfold handleGenerate at hmem
    revert hmem
    cases st.selectedVideo with
    | none =>
      intro hmem
      simp at hmem
    | some v =>
      by_cases hd : jsTrim st.description = ""
      · intro hmem
        simp [hd] at hmem
      · simp only [if_neg hd]
        cases sr with
        | error msg =>
          intro hmem
          simp at hmem
        | ok result =>
          cases hp : (pollLoop f fuel 0).2 with
          | none =>
            intro hmem
            simp [preEvents] at hmem
            exact waits_pollLoop f fuel 0 ms hmem
          | some r =>
            by_cases hc : r.status = "COMPLETED"
            · simp only [if_pos hc]
              intro hmem
              simp [preEvents] at hmem
              exact waits_pollLoop f fuel 0 ms hmem
            · simp only [if_neg hc]
              intro hmem
              simp [preEvents] at hmem
              exact waits_pollLoop f fuel 0 ms hmem
  · simpa [fullPollTrace] using cw_pollLoop f fuel 0

/-- Witness for C7: the concrete three-response run has the alternating
calls-and-waits shape with two waits. -/
theorem C7_fixed_poll_interval_witness :
    ∃ m, cwProj (fullPollTrace exStream 5) = altCW 0 m :=
  (C7_fixed_poll_interval exState exSubmit exStream 5 0).2

end EstateVision
